import Mathlib

/-!
Verification development for the retrospec search controller.

The Go source is shallowly embedded: text is modelled as `List Char`,
Go `float64` arithmetic as exact rationals, Go maps built by repeated
increments as occurrence lists (count = `List.count`), and Go string
sets as deduplicated lists.  External collaborators (the coding agent,
the judge, the test runner, git snapshots) enter as explicit oracle
parameters, exactly as the runner receives their results.
-/

namespace Retrospec

/-- Text is a list of characters (Go strings are byte strings; all
inputs of interest here are ASCII). -/
abbrev Str := List Char

/-- Characters matched by the Go regexp whitespace class: tab,
newline, form feed, carriage return and space. -/
def goSpaceB (c : Char) : Bool :=
  c = ' ' || c = '\t' || c = '\n' || c = Char.ofNat 12 || c = '\r'

/-- ASCII characters for which Go `unicode.IsSpace` holds (regexp `\s`
plus vertical tab), used by Go TrimSpace and Fields. -/
def uniSpaceB (c : Char) : Bool :=
  goSpaceB c || c = Char.ofNat 11

/-- ASCII word characters, the Go regexp class `\w` used by `\b`. -/
def wordCharB (c : Char) : Bool :=
  ('0' ≤ c && c ≤ '9') || ('a' ≤ c && c ≤ 'z') || ('A' ≤ c && c ≤ 'Z') || c = '_'

/-- ASCII decimal digits, the Go regexp class `\d`. -/
def digitB (c : Char) : Bool :=
  '0' ≤ c && c ≤ '9'

/-- ASCII lower-casing, as Go `strings.ToLower` acts on ASCII input. -/
def toLowerChar (c : Char) : Char :=
  if 'A' ≤ c && c ≤ 'Z' then Char.ofNat (c.toNat + 32) else c

/-- Go `strings.ToLower` on ASCII text. -/
def toLowerStr (s : Str) : Str := s.map toLowerChar

/-- Go `strings.TrimSpace`: strip leading and trailing whitespace. -/
def trimSpace (s : Str) : Str :=
  ((s.dropWhile uniSpaceB).reverse.dropWhile uniSpaceB).reverse

/-- Go `strings.Fields`: split around runs of whitespace, dropping
empty fields. -/
def goFields : Str → List Str
  | [] => []
  | c :: rest =>
    if uniSpaceB c then goFields rest
    else
      match goFields rest with
      | [] => [[c]]
      | f :: fs =>
        match rest with
        | [] => [[c]]
        | d :: _ => if uniSpaceB d then [c] :: f :: fs else (c :: f) :: fs

/-- Go `strings.Split` on a single separator character (`n` pieces for
`n - 1` separators, empty pieces preserved). -/
def splitOnChar (sep : Char) : Str → List Str
  | [] => [[]]
  | c :: rest =>
    if c = sep then [] :: splitOnChar sep rest
    else
      match splitOnChar sep rest with
      | [] => [[c]]
      | h :: t => (c :: h) :: t

/-- Go `strings.TrimRight(s, string(ch))` for a single character. -/
def trimRightChar (ch : Char) (s : Str) : Str :=
  (s.reverse.dropWhile (fun c => c = ch)).reverse

/-- Join a list of fields with a single space, as
`strings.Join(fields, " ")`. -/
def joinSpace : List Str → Str
  | [] => []
  | [f] => f
  | f :: fs => f ++ ' ' :: joinSpace fs

/-- Consume a case-sensitive literal, returning the rest of the text. -/
def eatLit : Str → Str → Option Str
  | [], s => some s
  | _ :: _, [] => none
  | c :: cs, d :: ds => if c = d then eatLit cs ds else none

/-- Consume a case-insensitive (ASCII) literal. -/
def eatLitCI : Str → Str → Option Str
  | [], s => some s
  | _ :: _, [] => none
  | c :: cs, d :: ds => if toLowerChar c = toLowerChar d then eatLitCI cs ds else none

/-- Regexp `\s*` (greedy). -/
def eatSpaces (s : Str) : Str := s.dropWhile goSpaceB

/-- Regexp `p+` for a character class `p` (maximal munch). -/
def eatWhile1 (p : Char → Bool) : Str → Option Str
  | [] => none
  | c :: rest => if p c then some (rest.dropWhile p) else none

/-- Regexp `\s+`. -/
def eatSpaces1 : Str → Option Str := eatWhile1 goSpaceB

/-- Regexp `\d+`. -/
def eatDigits1 : Str → Option Str := eatWhile1 digitB

/-- Regexp `\S+`. -/
def eatNonSpace1 : Str → Option Str := eatWhile1 (fun c => !goSpaceB c)

/-- Regexp `\b` at the front of the remaining text: the previous
character was a word character, so the match holds iff the next
character (if any) is not. -/
def boundaryB : Str → Bool
  | [] => true
  | c :: _ => !wordCharB c

/-- Suffixes of the text that start right after a newline: together
with the whole text these are the anchor points of multiline `^`. -/
def lineStartTails : Str → List Str
  | [] => []
  | c :: rest => (if c = '\n' then [rest] else []) ++ lineStartTails rest

/-- All anchor points of `(?m)^`: the start of the text and every
position following a newline. -/
def atLineStarts (s : Str) : List Str := s :: lineStartTails s

/-- Suffixes that start right after a `\s` character, the consuming
positions of `(?:^|\s)`. -/
def afterSpaceTails : Str → List Str
  | [] => []
  | c :: rest => (if goSpaceB c then [rest] else []) ++ afterSpaceTails rest

/-- Go `strings.TrimPrefix`. -/
def dropLit (lit : Str) (s : Str) : Str :=
  match eatLit lit s with
  | some r => r
  | none => s

namespace git

/-- Per-file added/removed line counts of a snapshot
(`git.FileStat`). -/
structure FileStat where
  path : Str
  added : Int
  removed : Int
deriving DecidableEq

/-- A patch text with its changed-file list and per-file statistics
(`git.DiffSnapshot`); the Go `map[string]FileStat` is modelled as an
association list with distinct keys. -/
structure DiffSnapshot where
  patch : Str
  changedFiles : List Str
  fileStats : List (Str × FileStat)
deriving DecidableEq

/-- Lookup in the `FileStats` map; a missing key yields the zero
`FileStat`, as in Go. -/
def lookupStat (stats : List (Str × FileStat)) (p : Str) : FileStat :=
  match stats.find? (fun e => e.1 = p) with
  | some e => e.2
  | none => ⟨[], 0, 0⟩

end git

namespace scoring

/-- scoring.clamp01: `math.Max(0, math.Min(1, v))`. -/
def clamp01 (v : ℚ) : ℚ := max 0 (min 1 v)

/-- scoring.safeDiv: a `0/0` ratio resolves to 1, `a/0` with `a ≠ 0`
to 0. -/
def safeDiv (a b : ℚ) : ℚ :=
  if b = 0 then (if a = 0 then 1 else 0) else a / b

/-- scoring.toSet: the set of distinct strings of a list. -/
def toSet (items : List Str) : List Str := items.dedup

/-- scoring.jaccardSet over string sets (deduplicated lists);
empty/empty is defined as 1 via the guard. -/
def jaccardSet (a b : List Str) : ℚ :=
  if a.length = 0 ∧ b.length = 0 then 1
  else
    let inter := a.countP (fun k => decide (k ∈ b))
    let uni := a.length + b.length - inter
    safeDiv (inter : ℚ) (uni : ℚ)

/-- scoring.weightedJaccard over line multisets (occurrence lists):
sum of per-key minimum counts over sum of per-key maximum counts. -/
def weightedJaccard (a b : List Str) : ℚ :=
  if a = [] ∧ b = [] then 1
  else
    let unionKeys := (a ++ b).dedup
    let inter := (unionKeys.map (fun k => min (a.count k) (b.count k))).sum
    let uni := (unionKeys.map (fun k => max (a.count k) (b.count k))).sum
    safeDiv (inter : ℚ) (uni : ℚ)

/-- scoring.multisetIntersectionCount: total of per-key minimum
counts. -/
def multisetIntersectionCount (a b : List Str) : Nat :=
  (a.dedup.map (fun k => min (a.count k) (b.count k))).sum

/-- scoring.multisetCount: total number of occurrences. -/
def multisetCount (a : List Str) : Nat :=
  (a.dedup.map (fun k => a.count k)).sum

/-- scoring.normalizeLine: collapse internal whitespace to single
spaces and trim. -/
def normalizeLine (s : Str) : Str :=
  joinSpace (goFields (trimSpace s))

/-- Parsed patch state: the per-file occurrence list is kept as
(file, key) pairs, the global multiset as a key occurrence list
(`scoring.parsedPatch`). -/
structure parsedPatch where
  fileEntries : List (Str × Str)
  global : List Str
deriving DecidableEq

/-- scoring.addDiffLine: record one added/removed diff line under its
normalized key. -/
def addDiffLine (p : parsedPatch) (file : Str) (pre : Char) (raw : Str) : parsedPatch :=
  let normalized := normalizeLine raw
  if normalized = [] then p
  else
    let key := pre :: normalized
    { fileEntries := if file = [] then p.fileEntries else p.fileEntries ++ [(file, key)]
      global := p.global ++ [key] }

/-- One step of the scoring.parseUnifiedDiff loop over the patch
lines; the state is the current file name and the accumulated
`parsedPatch`. -/
def parseStep (st : Str × parsedPatch) (raw : Str) : Str × parsedPatch :=
  let current := st.1
  let result := st.2
  let line := trimRightChar '\r' raw
  if ("diff --git ".toList).isPrefixOf line then
    let parts := splitOnChar ' ' line
    if 4 ≤ parts.length then (dropLit "b/".toList (parts.getD 3 []), result)
    else (current, result)
  else if ("+++ ".toList).isPrefixOf line ∨ ("--- ".toList).isPrefixOf line ∨
      ("@@".toList).isPrefixOf line then (current, result)
  else if ("+".toList).isPrefixOf line ∧ ¬ ("+++".toList).isPrefixOf line then
    (current, addDiffLine result current '+' (line.drop 1))
  else if ("-".toList).isPrefixOf line ∧ ¬ ("---".toList).isPrefixOf line then
    (current, addDiffLine result current '-' (line.drop 1))
  else (current, result)

/-- scoring.parseUnifiedDiff: fold the line parser over the patch
split at newlines. -/
def parseUnifiedDiff (patch : Str) : parsedPatch :=
  ((splitOnChar '\n' patch).foldl parseStep ([], ⟨[], []⟩)).2

/-- The line multiset a parsed patch assigns to one file. -/
def fileLinesOf (p : parsedPatch) (file : Str) : List Str :=
  (p.fileEntries.filter (fun e => decide (e.1 = file))).map (fun e => e.2)

/-- Per-file diagnostic entry (`scoring.PerFileScore`). -/
structure PerFileScore where
  path : Str
  similarity : ℚ
  targetLinesAdded : Int
  targetLinesRemoved : Int
  producedLinesAdded : Int
  producedLinesRemoved : Int
deriving DecidableEq

/-- Lexicographic (byte) order on text, `sort.Strings`. -/
def strLeB (a b : Str) : Bool :=
  match a, b with
  | [], _ => true
  | _ :: _, [] => false
  | c :: cs, d :: ds => if c = d then strLeB cs ds else decide (c < d)

/-- scoring.buildPerFileScores: per-path weighted Jaccard plus line
statistics, over the sorted union of changed paths. -/
def buildPerFileScores (target produced : git.DiffSnapshot)
    (targetParsed producedParsed : parsedPatch) : List PerFileScore :=
  let paths := ((target.changedFiles ++ produced.changedFiles).dedup).mergeSort strLeB
  paths.map (fun p =>
    let sim := weightedJaccard (fileLinesOf targetParsed p) (fileLinesOf producedParsed p)
    let t := git.lookupStat target.fileStats p
    let pr := git.lookupStat produced.fileStats p
    { path := p, similarity := sim,
      targetLinesAdded := t.added, targetLinesRemoved := t.removed,
      producedLinesAdded := pr.added, producedLinesRemoved := pr.removed })

/-- scoring.totalAddsRemoves over the stats map. -/
def totalAddsRemoves (stats : List (Str × git.FileStat)) : Int × Int :=
  ((stats.map (fun e => e.2.added)).sum, (stats.map (fun e => e.2.removed)).sum)

/-- Technical-similarity result (`scoring.TechScore`). -/
structure TechScore where
  fileJaccard : ℚ
  diffSimilarity : ℚ
  linePrecision : ℚ
  lineRecall : ℚ
  lineF1 : ℚ
  score : ℚ
  perFile : List PerFileScore
  targetFiles : Nat
  producedFiles : Nat
  targetTotalAdds : Int
  targetTotalDels : Int
  producedTotalAdds : Int
  producedTotalDels : Int
deriving DecidableEq

/-- scoring.ScoreTechSimilarity: file-set Jaccard, line-multiset
weighted Jaccard, precision/recall/F1, and the clamped weighted
final score. -/
def ScoreTechSimilarity (target produced : git.DiffSnapshot) : TechScore :=
  let targetSet := toSet target.changedFiles
  let producedSet := toSet produced.changedFiles
  let fileJaccard := jaccardSet targetSet producedSet
  let targetParsed := parseUnifiedDiff target.patch
  let producedParsed := parseUnifiedDiff produced.patch
  let diffSimilarity := weightedJaccard targetParsed.global producedParsed.global
  let tp := multisetIntersectionCount targetParsed.global producedParsed.global
  let targetN := multisetCount targetParsed.global
  let producedN := multisetCount producedParsed.global
  let precision := safeDiv (tp : ℚ) (producedN : ℚ)
  let recallScore := safeDiv (tp : ℚ) (targetN : ℚ)
  let f1 := safeDiv (2 * precision * recallScore) (precision + recallScore)
  let perFile := buildPerFileScores target produced targetParsed producedParsed
  let tTot := totalAddsRemoves target.fileStats
  let pTot := totalAddsRemoves produced.fileStats
  let final := clamp01 (2/5 * fileJaccard + 9/20 * diffSimilarity + 3/20 * f1)
  { fileJaccard := fileJaccard, diffSimilarity := diffSimilarity,
    linePrecision := precision, lineRecall := recallScore, lineF1 := f1,
    score := final, perFile := perFile,
    targetFiles := targetSet.length, producedFiles := producedSet.length,
    targetTotalAdds := tTot.1, targetTotalDels := tTot.2,
    producedTotalAdds := pTot.1, producedTotalDels := pTot.2 }

/-- scoring.CombineRealism: heuristic alone when no judge score is
available, otherwise a 0.6/0.4 blend; both clamped to [0,1]. -/
def CombineRealism (heuristic judge : ℚ) (hasJudge : Bool) : ℚ :=
  if !hasJudge then clamp01 heuristic
  else clamp01 (3/5 * heuristic + 2/5 * judge)

end scoring

namespace scoring

/-- Realism scoring result (`scoring.RealismResult`). -/
structure RealismResult where
  heuristicScore : ℚ
  judgeScore : ℚ
  score : ℚ
  reasons : List String
deriving DecidableEq

end scoring

namespace copilot

/-- Judge verdict returned by the external agent
(`copilot.JudgeResult`). -/
structure JudgeResult where
  score : ℚ
  justification : String
deriving DecidableEq

end copilot

namespace run

/-- Head character is a regexp whitespace character (consumes one
`s`-class character). -/
def headSpaceB : Str → Bool
  | c :: _ => goSpaceB c
  | [] => false

/-- Head character is a decimal digit. -/
def headDigitB : Str → Bool
  | c :: _ => digitB c
  | [] => false

/-- diffMarkerRe at one line-start anchor: a diff header, a hunk
header, or a file marker line. -/
def diffMarkerAt (s : Str) : Bool :=
  (((eatLit "diff".toList s).bind eatSpaces1).bind (eatLit "--git".toList)).isSome ||
  (match eatLit "@@".toList s with | some r => headSpaceB r | none => false) ||
  (match eatLit "+++".toList s with | some r => headSpaceB r | none => false) ||
  (match eatLit "---".toList s with | some r => headSpaceB r | none => false)

/-- run.diffMarkerRe: multiline match over all line starts. -/
def diffMarkerMatch (s : Str) : Bool := (atLineStarts s).any diffMarkerAt

/-- Command word followed by whitespace and a non-space token
(case-insensitive). -/
def cmdWordSp (w : String) (t : Str) : Bool :=
  (((eatLitCI w.toList t).bind eatSpaces1).bind eatNonSpace1).isSome

/-- Command word followed by a word boundary (case-insensitive). -/
def cmdWordB (w : String) (t : Str) : Bool :=
  match eatLitCI w.toList t with
  | some r => boundaryB r
  | none => false

/-- commandLineRe at one line-start anchor: leading whitespace then a
shell-command shape. -/
def commandLineAt (s : Str) : Bool :=
  let t := eatSpaces s
  (eatLit "$".toList t).isSome ||
  cmdWordSp "git" t ||
  (match (eatLitCI "go".toList t).bind eatSpaces1 with
   | some r => ["test", "run", "build", "tool"].any (fun w => cmdWordB w r)
   | none => false) ||
  cmdWordSp "npm" t || cmdWordSp "npx" t || cmdWordSp "cargo" t ||
  cmdWordB "make" t || cmdWordB "bash" t || cmdWordB "sh" t

/-- run.commandLineRe: multiline match over all line starts. -/
def commandLineMatch (s : Str) : Bool := (atLineStarts s).any commandLineAt

/-- Scan the rest of the current line for a colon followed by a digit
(the tail of stackTraceRe). -/
def seekColonDigit : Str → Bool
  | [] => false
  | c :: rest =>
    if c = '\n' then false
    else if c = ':' && headDigitB rest then true
    else seekColonDigit rest

/-- Tail of stackTraceRe after the opening parenthesis: at least one
non-newline character, then a colon and a digit on the same line. -/
def dotPlusColonDigit : Str → Bool
  | [] => false
  | c :: rest => c ≠ '\n' && seekColonDigit rest

/-- stackTraceRe at one line-start anchor. -/
def stackTraceAt (s : Str) : Bool :=
  let t := eatSpaces s
  match ((((eatLit "at".toList t).bind eatSpaces1).bind eatNonSpace1).bind eatSpaces1).bind
      (eatLit "(".toList) with
  | some r => dotPlusColonDigit r
  | none => false

/-- run.stackTraceRe: multiline match over all line starts. -/
def stackTraceMatch (s : Str) : Bool := (atLineStarts s).any stackTraceAt

/-- Character class of compileErrRe path segments. -/
def pathClassB (c : Char) : Bool :=
  ('A' ≤ c && c ≤ 'Z') || ('a' ≤ c && c ≤ 'z') || digitB c ||
  c = '_' || c = '.' || c = '/' || c = '-'

/-- compileErrRe at one (arbitrary) position: a path-like run, a
colon, a line number, an optional column number, a colon and a
whitespace character. -/
def compileErrAt (s : Str) : Bool :=
  match (((eatWhile1 pathClassB s).bind (eatLit ":".toList)).bind eatDigits1).bind
      (eatLit ":".toList) with
  | some r4 =>
    headSpaceB r4 ||
    (match (eatDigits1 r4).bind (eatLit ":".toList) with
     | some r6 => headSpaceB r6
     | none => false)
  | none => false

/-- run.compileErrRe: unanchored match at any position. -/
def compileErrMatch (s : Str) : Bool := s.tails.any compileErrAt

/-- Digits followed by a word boundary. -/
def digitsBoundary (s : Str) : Bool :=
  match eatDigits1 s with
  | some r => boundaryB r
  | none => false

/-- Body of issueRefRe after the start-or-whitespace anchor: a hash
reference or a tracker keyword followed by an optional hash and
digits. -/
def issueBodyAt (s : Str) : Bool :=
  (match eatLit "#".toList s with | some r => digitsBoundary r | none => false) ||
  (["issue", "issues", "pr", "pull request", "pull requests"].any (fun kw =>
    match eatLitCI kw.toList s with
    | some r1 =>
      let r2 := eatSpaces r1
      digitsBoundary r2 ||
      (match eatLit "#".toList r2 with
       | some r3 => digitsBoundary r3
       | none => false)
    | none => false))

/-- run.issueRefRe: anchored at the string start or right after a
whitespace character. -/
def issueRefMatch (s : Str) : Bool :=
  issueBodyAt s || (afterSpaceTails s).any issueBodyAt

/-- Optional plural letter then a word boundary. -/
def optPluralBoundary (s : Str) : Bool :=
  boundaryB s ||
  (match eatLitCI "s".toList s with | some r => boundaryB r | none => false)

/-- Shared shape of the section-header regexps: leading whitespace, a
hash, more whitespace, then the section words. -/
def sectionHeadAt (body : Str → Bool) (s : Str) : Bool :=
  let t := eatSpaces s
  match eatLit "#".toList t with
  | some r => body (eatSpaces r)
  | none => false

/-- run.sectionContextRe over all line starts. -/
def sectionContextMatch (s : Str) : Bool :=
  (atLineStarts s).any (sectionHeadAt (fun r =>
    match eatLitCI "context".toList r with
    | some r2 => boundaryB r2
    | none => false))

/-- run.sectionOutcomeRe over all line starts. -/
def sectionOutcomeMatch (s : Str) : Bool :=
  (atLineStarts s).any (sectionHeadAt (fun r =>
    (match eatLitCI "desired outcome".toList r with
     | some r2 => optPluralBoundary r2
     | none => false) ||
    (match eatLitCI "goal".toList r with
     | some r2 => optPluralBoundary r2
     | none => false)))

/-- Tail of the constraint alternative: either a direct boundary or
the optional and-non-goals group. -/
def constraintTail (r : Str) : Bool :=
  boundaryB r ||
  (match (((eatSpaces1 r).bind (eatLitCI "and".toList)).bind eatSpaces1).bind
      (eatLitCI "non-goal".toList) with
   | some r2 => optPluralBoundary r2
   | none => false)

/-- run.sectionConstraintRe over all line starts. -/
def sectionConstraintMatch (s : Str) : Bool :=
  (atLineStarts s).any (sectionHeadAt (fun r =>
    (match eatLitCI "constraint".toList r with
     | some r1 =>
       constraintTail r1 ||
       (match eatLitCI "s".toList r1 with
        | some r1s => constraintTail r1s
        | none => false)
     | none => false) ||
    (match eatLitCI "non-goal".toList r with
     | some r2 => optPluralBoundary r2
     | none => false) ||
    (match eatLitCI "out of scope".toList r with
     | some r2 => boundaryB r2
     | none => false)))

/-- run.sectionAcceptRe over all line starts. -/
def sectionAcceptMatch (s : Str) : Bool :=
  (atLineStarts s).any (sectionHeadAt (fun r =>
    (match eatLitCI "acceptance criteria".toList r with
     | some r2 => boundaryB r2
     | none => false) ||
    (match eatLitCI "validation".toList r with
     | some r2 => boundaryB r2
     | none => false) ||
    (match eatLitCI "test expectation".toList r with
     | some r2 => optPluralBoundary r2
     | none => false)))

/-- One line looks like a diff hunk line: after trimming it starts
with a plus or minus immediately followed by a non-space character. -/
def codePrefixedLineB (line : Str) : Bool :=
  match trimSpace line with
  | c :: d :: _ => (c = '+' || c = '-') && d ≠ ' '
  | _ => false

/-- The prompt has a code-like prefixed line among its newline-split
lines. -/
def hasCodePrefixedLine (s : Str) : Bool :=
  (splitOnChar '\n' s).any codePrefixedLineB

/-- Go `strings.Contains`: the first text occurs as a contiguous
substring of the second. -/
def containsStr (sub : Str) (s : Str) : Bool :=
  s.tails.any (fun t => sub.isPrefixOf t)

/-- run.ValidateNoCodePrompt: reject empty or oversized prompts and
prompts with code, diff, command, stack-trace, compiler-log or
tracker-reference artifacts; `none` means the prompt is accepted. -/
def ValidateNoCodePrompt (prompt : Str) (maxLength : Nat) : Option String :=
  let trimmed := trimSpace prompt
  if trimmed = [] then some "candidatePrompt is empty"
  else if 0 < maxLength ∧ maxLength < trimmed.length then
    some "candidatePrompt exceeds max length"
  else if containsStr "```".toList trimmed then
    some "candidatePrompt contains fenced code block"
  else if containsStr "`".toList trimmed then
    some "candidatePrompt contains inline code marker"
  else if diffMarkerMatch trimmed then some "candidatePrompt contains diff markers"
  else if commandLineMatch trimmed then
    some "candidatePrompt appears to include command lines"
  else if stackTraceMatch trimmed then
    some "candidatePrompt appears to include stack trace lines"
  else if compileErrMatch trimmed then
    some "candidatePrompt appears to include compiler/log output"
  else if issueRefMatch trimmed then
    some "candidatePrompt includes issue/PR references (for example #123)"
  else if hasCodePrefixedLine trimmed then
    some "candidatePrompt has code-like prefixed lines"
  else none

/-- run.ValidateStructuredPrompt: require the four section headers;
`none` means the prompt is accepted. -/
def ValidateStructuredPrompt (prompt : Str) : Option String :=
  let trimmed := trimSpace prompt
  if trimmed = [] then some "candidatePrompt is empty"
  else if ¬ sectionContextMatch trimmed then some "missing # Context section"
  else if ¬ sectionOutcomeMatch trimmed then some "missing # Desired Outcomes section"
  else if ¬ sectionConstraintMatch trimmed then
    some "missing # Constraints and Non-Goals section"
  else if ¬ sectionAcceptMatch trimmed then some "missing # Acceptance Criteria section"
  else none

/-- run.clamp01 (the runner has its own copy, written with explicit
branches). -/
def clamp01 (v : ℚ) : ℚ :=
  if v < 0 then 0 else if v > 1 then 1 else v

/-- Strip characters of a cutset from both ends (Go `strings.Trim`). -/
def trimCharSet (cs : Str) (l : Str) : Str :=
  ((l.dropWhile (fun c => cs.contains c)).reverse.dropWhile (fun c => cs.contains c)).reverse

/-- The punctuation-and-whitespace cutset of run.toTokenSet. -/
def tokenCutset : Str :=
  [' ', '\t', '\n', '\r', '.', ',', ';', ':', '!', '?', '(', ')', '[', ']',
   Char.ofNat 123, Char.ofNat 125, Char.ofNat 34, Char.ofNat 39, Char.ofNat 96]

/-- run.toTokenSet: lower-case, split on whitespace, strip surrounding
punctuation, discard tokens shorter than 4 characters, collect the
set. -/
def toTokenSet (s : Str) : List Str :=
  (((goFields (toLowerStr s)).map (trimCharSet tokenCutset)).filter
    (fun tok => 4 ≤ tok.length)).dedup

/-- run.jaccardTokens on token sets: empty/empty is 1, and a zero
union resolves to 0. -/
def jaccardTokens (a b : List Str) : ℚ :=
  if a.length = 0 ∧ b.length = 0 then 1
  else
    let inter := a.countP (fun k => decide (k ∈ b))
    let uni := a.length + b.length - inter
    if uni = 0 then 0 else (inter : ℚ) / (uni : ℚ)

/-- run.noveltyScore: 1 on empty history, otherwise one minus the best
Jaccard similarity against the history, clamped. -/
def noveltyScore (candidate : Str) (history : List Str) : ℚ :=
  if history = [] then 1
  else
    let candTokens := toTokenSet candidate
    let bestSimilarity := history.foldl
      (fun best h =>
        let sim := jaccardTokens candTokens (toTokenSet h)
        if sim > best then sim else best) 0
    clamp01 (1 - bestSimilarity)

/-- Best-effort test outcome (`run.TestRunResult`). -/
structure TestRunResult where
  ran : Bool
  passed : Bool
  category : String
  summary : String
deriving DecidableEq

/-- The fixed test result recorded when the coder session failed
before tests could run (runner.go line 255). -/
def coderFailedTestResult : TestRunResult :=
  { ran := false, passed := true, category := "not_run",
    summary := "coder session failed before test run" }

/-- Go `strings.TrimSpace` on a String value. -/
def trimSpaceS (s : String) : String := ⟨trimSpace s.data⟩

/-- Attempt log (`run.CoderAttemptLog`), restricted to the fields the
runner computes from the scored attempt. -/
structure CoderAttemptLog where
  candidatePrompt : String
  coderError : Option String
  coderFinalMessage : String
  tech : scoring.TechScore
  realism : scoring.RealismResult
  finalScore : ℚ
  testResult : TestRunResult
  producedFiles : List Str
deriving DecidableEq

/-- An attempt log together with its produced snapshot
(`run.coderAttemptRuntime`). -/
structure coderAttemptRuntime where
  log : CoderAttemptLog
  produced : git.DiffSnapshot
deriving DecidableEq

/-- The per-attempt body of `Runner.Execute` (runner.go lines
219-282): score one coder attempt.  The realism heuristic of the
prompt, the coder outcome, the produced snapshot, the judge outcome
and the best-effort test result are the oracle inputs the runner
obtains from its collaborators. -/
def processAttempt (alpha : ℚ) (target : git.DiffSnapshot) (candidatePrompt : String)
    (realismHeuristic : scoring.RealismResult)
    (coderErr : Option String) (coderFinalMessage : String)
    (produced : git.DiffSnapshot)
    (judge : Option copilot.JudgeResult)
    (testOracle : TestRunResult) : coderAttemptRuntime :=
  let tech := scoring.ScoreTechSimilarity target produced
  let withJudge : Bool × ℚ × scoring.RealismResult :=
    match judge with
    | some j =>
      (true, j.score,
        { realismHeuristic with
          judgeScore := j.score
          reasons :=
            if trimSpaceS j.justification ≠ "" then
              realismHeuristic.reasons ++ ["judge: " ++ trimSpaceS j.justification]
            else realismHeuristic.reasons })
    | none => (false, 0, realismHeuristic)
  let realism : scoring.RealismResult :=
    { withJudge.2.2 with
      score := scoring.CombineRealism withJudge.2.2.heuristicScore withJudge.2.1 withJudge.1 }
  let finalScore := alpha * tech.score + (1 - alpha) * realism.score
  let testResult :=
    match coderErr with
    | some _ => coderFailedTestResult
    | none => testOracle
  { log := { candidatePrompt := candidatePrompt, coderError := coderErr,
             coderFinalMessage := coderFinalMessage, tech := tech, realism := realism,
             finalScore := finalScore, testResult := testResult,
             producedFiles := produced.changedFiles }
    produced := produced }

/-- Final score of the attempt at one index (indices are always in
range in the runner loop). -/
def finalAt (attempts : List coderAttemptRuntime) (i : Nat) : ℚ :=
  match attempts[i]? with
  | some a => a.log.finalScore
  | none => 0

/-- Iteration-best selection (runner.go lines 291-296): first index of
the maximal final score. -/
def bestAttemptIdx (attempts : List coderAttemptRuntime) : Nat :=
  (List.range attempts.length).foldl
    (fun bestIdx i => if finalAt attempts i > finalAt attempts bestIdx then i else bestIdx) 0

/-- Forget the recorded coder error of an attempt (used to state that
selection is blind to it). -/
def clearCoderError (a : coderAttemptRuntime) : coderAttemptRuntime :=
  { a with log := { a.log with coderError := none } }

/-- Iteration-best outcome fed into the global best-tracking state
(the fields of the selected attempt the runner copies). -/
structure IterOutcome where
  prompt : String
  patch : Str
  tech : ℚ
  realism : ℚ
  final : ℚ
deriving DecidableEq

/-- Global best state (`run.bestState`). -/
structure bestState where
  iteration : Nat
  prompt : String
  patch : Str
  tech : ℚ
  realism : ℚ
  final : ℚ
deriving DecidableEq

/-- Initial best state: `bestState{final: -1}` with iteration 0. -/
def initialBest : bestState :=
  { iteration := 0, prompt := "", patch := [], tech := 0, realism := 0, final := -1 }

/-- Global best update (runner.go lines 330-342): replace only on a
strictly greater final score and reset the streak, otherwise keep the
best and lengthen the streak. -/
def updateBest (best : bestState) (noImprovement : Nat) (iter : Nat)
    (o : IterOutcome) : bestState × Nat :=
  if o.final > best.final then
    ({ iteration := iter, prompt := o.prompt, patch := o.patch,
       tech := o.tech, realism := o.realism, final := o.final }, 0)
  else (best, noImprovement + 1)

/-- Stop evaluation at the end of one iteration (runner.go lines
363-370): threshold first, then the no-improvement streak. -/
def stopCheck (threshold finalScore : ℚ) (noImprovement : Nat) : Option String :=
  if finalScore ≥ threshold then some "threshold reached"
  else if 3 ≤ noImprovement then some "no improvement for 3 iterations"
  else none

/-- The iteration loop of `Runner.Execute` over the per-iteration best
outcomes; returns the final best state, the last executed iteration
and the recorded stop reason ("max-iters reached" when the outcome
list is exhausted). -/
def runLoop (threshold : ℚ) : Nat → bestState → Nat → List IterOutcome →
    bestState × Nat × String
  | iter, best, _, [] => (best, iter - 1, "max-iters reached")
  | iter, best, noImp, o :: rest =>
    let st := updateBest best noImp iter o
    match stopCheck threshold o.final st.2 with
    | some reason => (st.1, iter, reason)
    | none => runLoop threshold (iter + 1) st.1 st.2 rest

/-- run.Execute iteration state machine, started at iteration 1 with
the initial best state and an empty streak. -/
def Execute (threshold : ℚ) (outcomes : List IterOutcome) : bestState × Nat × String :=
  runLoop threshold 1 initialBest 0 outcomes

end run


namespace scoring

lemma clamp01_nonneg (v : ℚ) : 0 ≤ clamp01 v := le_max_left _ _

lemma clamp01_le_one (v : ℚ) : clamp01 v ≤ 1 :=
  max_le (by norm_num) (min_le_left _ _)

lemma clamp01_one : clamp01 1 = 1 := by norm_num [clamp01]

lemma safeDiv_self (a : ℚ) : safeDiv a a = 1 := by
  unfold safeDiv
  by_cases h : a = 0
  · simp [h]
  · simp [h, div_self h]

lemma jaccardSet_self (s : List Str) : jaccardSet s s = 1 := by
  by_cases h : s.length = 0
  · simp [jaccardSet, h]
  · have hc : s.countP (fun k => decide (k ∈ s)) = s.length :=
      List.countP_eq_length.mpr (fun a ha => by simpa using ha)
    have hlen : s.length + s.length - s.length = s.length := by omega
    simp only [jaccardSet, h, and_self, if_false, hc, hlen]
    exact safeDiv_self _

lemma weightedJaccard_self (m : List Str) : weightedJaccard m m = 1 := by
  by_cases h : m = []
  · simp [weightedJaccard, h]
  · simp only [weightedJaccard, h, and_self, if_false, min_self, max_self]
    exact safeDiv_self _

lemma multisetIntersectionCount_self (m : List Str) :
    multisetIntersectionCount m m = multisetCount m := by
  simp [multisetIntersectionCount, multisetCount, min_self]

lemma ScoreTechSimilarity_fileJaccard (t p : git.DiffSnapshot) :
    (ScoreTechSimilarity t p).fileJaccard =
      jaccardSet (toSet t.changedFiles) (toSet p.changedFiles) := rfl

lemma ScoreTechSimilarity_diffSimilarity (t p : git.DiffSnapshot) :
    (ScoreTechSimilarity t p).diffSimilarity =
      weightedJaccard (parseUnifiedDiff t.patch).global (parseUnifiedDiff p.patch).global := rfl

lemma ScoreTechSimilarity_lineF1 (t p : git.DiffSnapshot) :
    (ScoreTechSimilarity t p).lineF1 =
      safeDiv
        (2 * safeDiv (multisetIntersectionCount (parseUnifiedDiff t.patch).global
              (parseUnifiedDiff p.patch).global : ℚ)
            (multisetCount (parseUnifiedDiff p.patch).global : ℚ) *
          safeDiv (multisetIntersectionCount (parseUnifiedDiff t.patch).global
              (parseUnifiedDiff p.patch).global : ℚ)
            (multisetCount (parseUnifiedDiff t.patch).global : ℚ))
        (safeDiv (multisetIntersectionCount (parseUnifiedDiff t.patch).global
              (parseUnifiedDiff p.patch).global : ℚ)
            (multisetCount (parseUnifiedDiff p.patch).global : ℚ) +
          safeDiv (multisetIntersectionCount (parseUnifiedDiff t.patch).global
              (parseUnifiedDiff p.patch).global : ℚ)
            (multisetCount (parseUnifiedDiff t.patch).global : ℚ)) := rfl

lemma ScoreTechSimilarity_score (t p : git.DiffSnapshot) :
    (ScoreTechSimilarity t p).score =
      clamp01 (2/5 * (ScoreTechSimilarity t p).fileJaccard +
        9/20 * (ScoreTechSimilarity t p).diffSimilarity +
        3/20 * (ScoreTechSimilarity t p).lineF1) := rfl

end scoring

/-- C6: for every DiffSnapshot D (including one with an empty patch
and no changed files), scoring D against itself yields file Jaccard 1,
diff similarity 1, line F1 1 and final technical score 1; and in
general the final technical score is the clamped weighted sum
0.40 * fileJaccard + 0.45 * diffSimilarity + 0.15 * F1. -/
theorem tech_similarity_self_perfect :
    (∀ D : git.DiffSnapshot,
      (scoring.ScoreTechSimilarity D D).fileJaccard = 1 ∧
      (scoring.ScoreTechSimilarity D D).diffSimilarity = 1 ∧
      (scoring.ScoreTechSimilarity D D).lineF1 = 1 ∧
      (scoring.ScoreTechSimilarity D D).score = 1) ∧
    (∀ t p : git.DiffSnapshot,
      (scoring.ScoreTechSimilarity t p).score =
        scoring.clamp01 (2/5 * (scoring.ScoreTechSimilarity t p).fileJaccard +
          9/20 * (scoring.ScoreTechSimilarity t p).diffSimilarity +
          3/20 * (scoring.ScoreTechSimilarity t p).lineF1)) := by
  constructor
  · intro D
    have hfj : (scoring.ScoreTechSimilarity D D).fileJaccard = 1 := by
      rw [scoring.ScoreTechSimilarity_fileJaccard]
      exact scoring.jaccardSet_self _
    have hds : (scoring.ScoreTechSimilarity D D).diffSimilarity = 1 := by
      rw [scoring.ScoreTechSimilarity_diffSimilarity]
      exact scoring.weightedJaccard_self _
    have hf1 : (scoring.ScoreTechSimilarity D D).lineF1 = 1 := by
      rw [scoring.ScoreTechSimilarity_lineF1, scoring.multisetIntersectionCount_self,
        scoring.safeDiv_self]
      norm_num [scoring.safeDiv]
    refine ⟨hfj, hds, hf1, ?_⟩
    rw [scoring.ScoreTechSimilarity_score, hfj, hds, hf1]
    norm_num [scoring.clamp01_one]
  · intro t p
    exact scoring.ScoreTechSimilarity_score t p


/-- Iteration outcome with only the final score of interest (demo
scenarios). -/
def mkIterOutcome (p : String) (q : ℚ) : run.IterOutcome :=
  { prompt := p, patch := [], tech := 0, realism := 0, final := q }

/-- Simulated per-iteration best final scores 0.3, 0.3, 0.6, 0.5, 0.6. -/
def c1Outcomes : List run.IterOutcome :=
  [mkIterOutcome "p1" (3/10), mkIterOutcome "p2" (3/10), mkIterOutcome "p3" (3/5),
   mkIterOutcome "p4" (1/2), mkIterOutcome "p5" (3/5)]

/-- C1: the tracked global best is replaced only by a strictly greater
final score: on a tie or a lower score the whole best record is kept
and the streak grows; on the simulated scores 0.3, 0.3, 0.6, 0.5, 0.6
with a high threshold the best is 0.6 first reached at iteration 3 and
survives iterations 4 and 5. -/
theorem global_best_replaced_only_on_strict_improvement
    (best : run.bestState) (noImprovement iter : Nat) (o : run.IterOutcome) :
    (o.final ≤ best.final →
      run.updateBest best noImprovement iter o = (best, noImprovement + 1)) ∧
    (best.final < o.final →
      run.updateBest best noImprovement iter o =
        ({ iteration := iter, prompt := o.prompt, patch := o.patch,
           tech := o.tech, realism := o.realism, final := o.final }, 0)) ∧
    run.Execute (19/20) c1Outcomes =
      ({ iteration := 3, prompt := "p3", patch := [], tech := 0, realism := 0,
         final := 3/5 }, 5, "max-iters reached") := by
  refine ⟨?_, ?_, ?_⟩
  · intro h
    simp [run.updateBest, not_lt.mpr h]
  · intro h
    simp [run.updateBest, h]
  · norm_num [run.Execute, run.runLoop, run.updateBest, run.stopCheck, c1Outcomes,
      mkIterOutcome, run.initialBest]

/-- The best state after iteration 3 of the C1 scenario. -/
def c1BestAtThree : run.bestState :=
  { iteration := 3, prompt := "p3", patch := [], tech := 0, realism := 0, final := 3/5 }

/-- Witness for C1: a tied iteration (0.6 against best 0.6) leaves the
best record untouched, and the first iteration strictly improves on
the initial sentinel. -/
theorem global_best_strict_improvement_witness :
    run.updateBest c1BestAtThree 1 5 (mkIterOutcome "p5" (3/5)) = (c1BestAtThree, 2) ∧
    run.updateBest run.initialBest 0 1 (mkIterOutcome "p1" (3/10)) =
      ({ iteration := 1, prompt := "p1", patch := [], tech := 0, realism := 0,
         final := 3/10 }, 0) :=
  ⟨(global_best_replaced_only_on_strict_improvement _ 1 5 _).1
     (by norm_num [mkIterOutcome, c1BestAtThree]),
   (global_best_replaced_only_on_strict_improvement _ 0 1 _).2.1
     (by norm_num [mkIterOutcome, run.initialBest])⟩

/-- Scores for the exact-threshold scenario: iteration 3 reaches 0.6
with threshold 0.6. -/
def c3Outcomes : List run.IterOutcome :=
  [mkIterOutcome "q1" (3/10), mkIterOutcome "q2" (3/10), mkIterOutcome "q3" (3/5),
   mkIterOutcome "q4" (1/5), mkIterOutcome "q5" (9/10)]

/-- C3: whenever the loop processes an iteration whose best final
score is at least the threshold (equality included), it stops at that
iteration with reason "threshold reached"; with threshold 0.6 and
iteration 3 reaching exactly 0.6 the run stops at iteration 3. -/
theorem threshold_stop_at_iteration
    (threshold : ℚ) (iter : Nat) (best : run.bestState) (noImprovement : Nat)
    (o : run.IterOutcome) (rest : List run.IterOutcome)
    (h : o.final ≥ threshold) :
    run.runLoop threshold iter best noImprovement (o :: rest) =
      ((run.updateBest best noImprovement iter o).1, iter, "threshold reached") ∧
    run.Execute (3/5) c3Outcomes =
      ({ iteration := 3, prompt := "q3", patch := [], tech := 0, realism := 0,
         final := 3/5 }, 3, "threshold reached") := by
  constructor
  · have hs : run.stopCheck threshold o.final (run.updateBest best noImprovement iter o).2 =
        some "threshold reached" := by
      rw [run.stopCheck]
      exact if_pos h
    simp [run.runLoop, hs]
  · norm_num [run.Execute, run.runLoop, run.updateBest, run.stopCheck, c3Outcomes,
      mkIterOutcome, run.initialBest]

/-- Witness for C3: a single iteration at 0.7 against threshold 0.6
stops at once with "threshold reached". -/
theorem threshold_stop_witness :
    run.runLoop (3/5) 7 run.initialBest 0 [mkIterOutcome "z" (7/10)] =
      ((run.updateBest run.initialBest 0 7 (mkIterOutcome "z" (7/10))).1, 7,
        "threshold reached") :=
  (threshold_stop_at_iteration (3/5) 7 run.initialBest 0 (mkIterOutcome "z" (7/10)) []
    (by norm_num [mkIterOutcome])).1

/-- Scores for the early-stop scenario: 50 configured iterations, no
improvement from iteration 2 on. -/
def c4Outcomes : List run.IterOutcome :=
  [mkIterOutcome "r1" (1/2), mkIterOutcome "r2" (2/5), mkIterOutcome "r3" (2/5),
   mkIterOutcome "r4" (2/5)] ++ List.replicate 46 (mkIterOutcome "rx" (1/10))

/-- C4: with the best scores below the threshold, three consecutive
iterations that do not strictly improve on the current global best
(ties count as non-improving) stop the run with reason "no improvement
for 3 iterations": both from a fresh streak over three outcomes and
from a streak of 2 over one outcome; in a 50-iteration run that
degrades after iteration 1 the stop happens at iteration 4, far below
the maximum. -/
theorem no_improvement_stop_after_three
    (threshold : ℚ) (iter : Nat) (best : run.bestState)
    (o1 o2 o3 : run.IterOutcome) (rest : List run.IterOutcome)
    (hb1 : o1.final < threshold) (hb2 : o2.final < threshold) (hb3 : o3.final < threshold)
    (hn1 : o1.final ≤ best.final) (hn2 : o2.final ≤ best.final)
    (hn3 : o3.final ≤ best.final) :
    run.runLoop threshold iter best 0 (o1 :: o2 :: o3 :: rest) =
      (best, iter + 2, "no improvement for 3 iterations") ∧
    run.runLoop threshold iter best 2 (o3 :: rest) =
      (best, iter, "no improvement for 3 iterations") ∧
    ((run.Execute (9/10) c4Outcomes).2 = (4, "no improvement for 3 iterations") ∧
      c4Outcomes.length = 50) := by
  have hstep : ∀ (n : Nat) (o : run.IterOutcome) (i : Nat), o.final ≤ best.final →
      run.updateBest best n i o = (best, n + 1) := by
    intro n o i hno
    simp [run.updateBest, not_lt.mpr hno]
  have hgo : ∀ (n : Nat) (o : run.IterOutcome), o.final < threshold → n + 1 < 3 →
      run.stopCheck threshold o.final (n + 1) = none := by
    intro n o hb hlt
    rw [run.stopCheck, if_neg (not_le.mpr hb), if_neg (by omega)]
  have hhit : ∀ o : run.IterOutcome, o.final < threshold →
      run.stopCheck threshold o.final 3 = some "no improvement for 3 iterations" := by
    intro o hb
    rw [run.stopCheck, if_neg (not_le.mpr hb)]
    rfl
  refine ⟨?_, ?_, ?_⟩
  · simp [run.runLoop, hstep 0 o1 iter hn1, hgo 0 o1 hb1 (by omega),
      hstep 1 o2 (iter + 1) hn2, hgo 1 o2 hb2 (by omega),
      hstep 2 o3 (iter + 1 + 1) hn3, hhit o3 hb3]
  · simp [run.runLoop, hstep 2 o3 iter hn3, hhit o3 hb3]
  · refine ⟨?_, by simp [c4Outcomes]⟩
    norm_num [run.Execute, run.runLoop, run.updateBest, run.stopCheck, c4Outcomes,
      mkIterOutcome, run.initialBest]

/-- The best state after iteration 1 of the C4 scenario. -/
def c4BestAtOne : run.bestState :=
  { iteration := 1, prompt := "r1", patch := [], tech := 0, realism := 0, final := 1/2 }

/-- Witness for C4: three consecutive tied scores of 0.4 below a best
of 0.5 and threshold 0.9 stop the loop at the third iteration. -/
theorem no_improvement_stop_witness :
    run.runLoop (9/10) 2 c4BestAtOne 0
        [mkIterOutcome "r2" (2/5), mkIterOutcome "r3" (2/5), mkIterOutcome "r4" (2/5)] =
      (c4BestAtOne, 4, "no improvement for 3 iterations") :=
  (no_improvement_stop_after_three (9/10) 2 c4BestAtOne (mkIterOutcome "r2" (2/5))
    (mkIterOutcome "r3" (2/5)) (mkIterOutcome "r4" (2/5)) []
    (by norm_num [mkIterOutcome]) (by norm_num [mkIterOutcome])
    (by norm_num [mkIterOutcome]) (by norm_num [mkIterOutcome, c4BestAtOne])
    (by norm_num [mkIterOutcome, c4BestAtOne])
    (by norm_num [mkIterOutcome, c4BestAtOne])).1

namespace scoring

lemma CombineRealism_nonneg (h j : ℚ) (b : Bool) : 0 ≤ CombineRealism h j b := by
  unfold CombineRealism
  cases b <;> simp <;> exact clamp01_nonneg _

lemma CombineRealism_le_one (h j : ℚ) (b : Bool) : CombineRealism h j b ≤ 1 := by
  unfold CombineRealism
  cases b <;> simp <;> exact clamp01_le_one _

end scoring

namespace run

lemma processAttempt_tech (alpha : ℚ) (target : git.DiffSnapshot) (prompt : String)
    (rh : scoring.RealismResult) (ce : Option String) (msg : String)
    (produced : git.DiffSnapshot) (judge : Option copilot.JudgeResult)
    (t : TestRunResult) :
    (processAttempt alpha target prompt rh ce msg produced judge t).log.tech =
      scoring.ScoreTechSimilarity target produced := rfl

lemma processAttempt_realism_score (alpha : ℚ) (target : git.DiffSnapshot)
    (prompt : String) (rh : scoring.RealismResult) (ce : Option String) (msg : String)
    (produced : git.DiffSnapshot) (judge : Option copilot.JudgeResult)
    (t : TestRunResult) :
    (processAttempt alpha target prompt rh ce msg produced judge t).log.realism.score =
      scoring.CombineRealism rh.heuristicScore
        (match judge with | some j => j.score | none => 0) judge.isSome := by
  cases judge <;> rfl

lemma processAttempt_finalScore (alpha : ℚ) (target : git.DiffSnapshot)
    (prompt : String) (rh : scoring.RealismResult) (ce : Option String) (msg : String)
    (produced : git.DiffSnapshot) (judge : Option copilot.JudgeResult)
    (t : TestRunResult) :
    (processAttempt alpha target prompt rh ce msg produced judge t).log.finalScore =
      alpha * (processAttempt alpha target prompt rh ce msg produced judge t).log.tech.score +
        (1 - alpha) *
          (processAttempt alpha target prompt rh ce msg produced judge t).log.realism.score := rfl

end run

/-- C2: every attempt final score is the affine blend
alpha * technicalScore + (1 - alpha) * realismScore; the technical
component is clamped to the unit interval by the technical scorer, the
realism component by the realism combiner, hence the final score is in
the unit interval whenever alpha is. -/
theorem final_score_affine_blend_in_unit_interval
    (alpha : ℚ) (target : git.DiffSnapshot) (prompt : String)
    (realismHeuristic : scoring.RealismResult) (coderErr : Option String)
    (msg : String) (produced : git.DiffSnapshot)
    (judge : Option copilot.JudgeResult) (testOracle : run.TestRunResult)
    (h0 : 0 ≤ alpha) (h1 : alpha ≤ 1) :
    ∀ a : run.coderAttemptRuntime,
      a = run.processAttempt alpha target prompt realismHeuristic coderErr msg produced
          judge testOracle →
      a.log.finalScore = alpha * a.log.tech.score + (1 - alpha) * a.log.realism.score ∧
      0 ≤ a.log.tech.score ∧ a.log.tech.score ≤ 1 ∧
      0 ≤ a.log.realism.score ∧ a.log.realism.score ≤ 1 ∧
      0 ≤ a.log.finalScore ∧ a.log.finalScore ≤ 1 := by
  intro a ha
  subst ha
  have htech := run.processAttempt_tech alpha target prompt realismHeuristic coderErr msg
    produced judge testOracle
  have ht0 : 0 ≤ (scoring.ScoreTechSimilarity target produced).score := by
    rw [scoring.ScoreTechSimilarity_score]
    exact scoring.clamp01_nonneg _
  have ht1 : (scoring.ScoreTechSimilarity target produced).score ≤ 1 := by
    rw [scoring.ScoreTechSimilarity_score]
    exact scoring.clamp01_le_one _
  have hrs := run.processAttempt_realism_score alpha target prompt realismHeuristic coderErr
    msg produced judge testOracle
  have hr0 : 0 ≤ (run.processAttempt alpha target prompt realismHeuristic coderErr msg
      produced judge testOracle).log.realism.score := by
    rw [hrs]
    exact scoring.CombineRealism_nonneg _ _ _
  have hr1 : (run.processAttempt alpha target prompt realismHeuristic coderErr msg
      produced judge testOracle).log.realism.score ≤ 1 := by
    rw [hrs]
    exact scoring.CombineRealism_le_one _ _ _
  have hfs := run.processAttempt_finalScore alpha target prompt realismHeuristic coderErr
    msg produced judge testOracle
  rw [htech] at hfs
  refine ⟨by rw [hfs, htech], by rw [htech]; exact ht0, by rw [htech]; exact ht1, hr0, hr1,
    ?_, ?_⟩
  · rw [hfs]
    have h2 : 0 ≤ alpha * (scoring.ScoreTechSimilarity target produced).score :=
      mul_nonneg h0 ht0
    have h3 : 0 ≤ (1 - alpha) *
        (run.processAttempt alpha target prompt realismHeuristic coderErr msg produced
          judge testOracle).log.realism.score :=
      mul_nonneg (by linarith) hr0
    linarith
  · rw [hfs]
    have h2 : alpha * (scoring.ScoreTechSimilarity target produced).score ≤ alpha :=
      mul_le_of_le_one_right h0 ht1
    have h3 : (1 - alpha) *
        (run.processAttempt alpha target prompt realismHeuristic coderErr msg produced
          judge testOracle).log.realism.score ≤ 1 - alpha :=
      mul_le_of_le_one_right (by linarith) hr1
    linarith

/-- Concrete snapshot used by the attempt demos. -/
def demoTarget : git.DiffSnapshot :=
  { patch := ("diff --git a/a.go b/a.go\n+foo\n").toList,
    changedFiles := ["a.go".toList],
    fileStats := [("a.go".toList, { path := "a.go".toList, added := 1, removed := 0 })] }

/-- The empty produced snapshot of a failed coder session. -/
def demoEmptySnap : git.DiffSnapshot :=
  { patch := [], changedFiles := [], fileStats := [] }

/-- A concrete realism heuristic result. -/
def demoRealism : scoring.RealismResult :=
  { heuristicScore := 11/20, judgeScore := 0, score := 0, reasons := [] }

/-- A concrete test-runner oracle value (unused on the error path). -/
def demoTestOracle : run.TestRunResult :=
  { ran := true, passed := true, category := "pass", summary := "go passed" }

/-- A concrete attempt whose coder session timed out. -/
def demoErrAttempt : run.coderAttemptRuntime :=
  run.processAttempt (1/2) demoTarget "demo prompt" demoRealism (some "coder timeout") ""
    demoEmptySnap none demoTestOracle

/-- Witness for C2 at a concrete alpha and concrete oracle inputs. -/
theorem final_score_affine_blend_witness :
    demoErrAttempt.log.finalScore =
      1/2 * demoErrAttempt.log.tech.score + (1 - 1/2) * demoErrAttempt.log.realism.score ∧
    0 ≤ demoErrAttempt.log.finalScore ∧ demoErrAttempt.log.finalScore ≤ 1 :=
  let h := final_score_affine_blend_in_unit_interval (1/2) demoTarget "demo prompt"
    demoRealism (some "coder timeout") "" demoEmptySnap none demoTestOracle
    (by norm_num) (by norm_num) demoErrAttempt rfl
  ⟨h.1, h.2.2.2.2.2.1, h.2.2.2.2.2.2⟩

namespace run

lemma finalAt_map_clearCoderError (attempts : List coderAttemptRuntime) (i : Nat) :
    finalAt (attempts.map clearCoderError) i = finalAt attempts i := by
  unfold finalAt
  rw [List.getElem?_map]
  cases attempts[i]? <;> rfl

/-- Iteration-best selection never looks at the recorded coder error:
erasing every error leaves the selected index unchanged. -/
lemma bestAttemptIdx_clearCoderError (attempts : List coderAttemptRuntime) :
    bestAttemptIdx (attempts.map clearCoderError) = bestAttemptIdx attempts := by
  unfold bestAttemptIdx
  rw [List.length_map]
  apply List.foldl_ext
  intro b i _
  rw [finalAt_map_clearCoderError, finalAt_map_clearCoderError]

end run

/-- C5 (amended): an attempt whose coder execution errored or timed
out still carries its produced snapshot and fully computed
technical/realism/final scores, records the error, and selection of
the iteration best ignores the recorded error; but its test result is
the neutral not-run record (passed, category "not_run"), not a failing
test category. -/
theorem coder_error_attempt_scored_and_eligible
    (alpha : ℚ) (target : git.DiffSnapshot) (prompt : String)
    (realismHeuristic : scoring.RealismResult) (e : String) (msg : String)
    (produced : git.DiffSnapshot) (judge : Option copilot.JudgeResult)
    (testOracle : run.TestRunResult) :
    ∀ a : run.coderAttemptRuntime,
      a = run.processAttempt alpha target prompt realismHeuristic (some e) msg produced
          judge testOracle →
      a.log.coderError = some e ∧
      a.produced = produced ∧
      a.log.tech = scoring.ScoreTechSimilarity target produced ∧
      a.log.finalScore = alpha * a.log.tech.score + (1 - alpha) * a.log.realism.score ∧
      a.log.testResult = run.coderFailedTestResult ∧
      a.log.testResult.passed = true ∧
      (∀ attempts : List run.coderAttemptRuntime,
        run.bestAttemptIdx (attempts.map run.clearCoderError) =
          run.bestAttemptIdx attempts) := by
  intro a ha
  subst ha
  refine ⟨rfl, rfl, rfl, run.processAttempt_finalScore _ _ _ _ _ _ _ _ _, rfl, rfl, ?_⟩
  exact run.bestAttemptIdx_clearCoderError

/-- Counterexample for C5 as stated: a concrete timed-out attempt
records the category "not_run" with passed = true — the same neutral
category used when a produced repository simply has no recognized
tests — not one of the failing categories the test runner produces
(timeout, compilation, unit-test, test-failure, all recorded with
passed = false). -/
theorem coder_error_not_failing_category_counterexample :
    demoErrAttempt.log.coderError = some "coder timeout" ∧
    demoErrAttempt.log.testResult.category = "not_run" ∧
    demoErrAttempt.log.testResult.passed = true ∧
    demoErrAttempt.log.testResult.category ∉
      ["timeout", "compilation", "unit-test", "test-failure"] :=
  ⟨rfl, rfl, rfl, by decide⟩

/-- Witness for C5 (amended) at the concrete timed-out attempt. -/
theorem coder_error_attempt_scored_witness :
    demoErrAttempt.log.coderError = some "coder timeout" ∧
    demoErrAttempt.produced = demoEmptySnap ∧
    demoErrAttempt.log.testResult = run.coderFailedTestResult :=
  let h := coder_error_attempt_scored_and_eligible (1/2) demoTarget "demo prompt"
    demoRealism "coder timeout" "" demoEmptySnap none demoTestOracle demoErrAttempt rfl
  ⟨h.1, h.2.1, h.2.2.2.2.1⟩

namespace run

lemma clamp01_zero : clamp01 0 = 0 := by norm_num [clamp01]

lemma jaccardTokens_self (a : List Str) : jaccardTokens a a = 1 := by
  by_cases h : a.length = 0
  · simp [jaccardTokens, h]
  · have hc : a.countP (fun k => decide (k ∈ a)) = a.length :=
      List.countP_eq_length.mpr (fun x hx => by simpa using hx)
    have hlen : a.length + a.length - a.length = a.length := by omega
    simp only [jaccardTokens, h, and_self, if_false, hc, hlen]
    exact div_self (by exact_mod_cast h)

lemma jaccardTokens_nil_left (b : List Str) :
    jaccardTokens [] b = if b.length = 0 then 1 else 0 := by
  by_cases h : b.length = 0
  · simp [jaccardTokens, h]
  · simp [jaccardTokens, h]

/-- The running-maximum fold of noveltyScore is a fold of `max` over
the mapped similarities. -/
lemma foldl_sim_max (c : Str) (l : List Str) (b : ℚ) :
    l.foldl (fun best h =>
        let sim := jaccardTokens (toTokenSet c) (toTokenSet h)
        if sim > best then sim else best) b =
      (l.map (fun x => jaccardTokens (toTokenSet c) (toTokenSet x))).foldl max b := by
  induction l generalizing b with
  | nil => rfl
  | cons x xs ih =>
    simp only [List.foldl_cons, List.map_cons]
    rw [ih]
    congr 1
    by_cases hx : jaccardTokens (toTokenSet c) (toTokenSet x) > b
    · simp only [hx, if_true]
      exact (max_eq_right hx.le).symm
    · simp only [hx, if_false]
      exact (max_eq_left (not_lt.mp hx)).symm

lemma foldl_max_of_le (l : List ℚ) (b : ℚ) (h : ∀ x ∈ l, x ≤ b) : l.foldl max b = b := by
  induction l generalizing b with
  | nil => rfl
  | cons x xs ih =>
    simp only [List.foldl_cons]
    rw [max_eq_left (h x (by simp))]
    exact ih b (fun y hy => h y (by simp [hy]))

lemma foldl_max_eq_one (l : List ℚ) (b : ℚ) (hb : b ≤ 1) (hex : (1 : ℚ) ∈ l)
    (hle : ∀ x ∈ l, x ≤ 1) : l.foldl max b = 1 := by
  induction l generalizing b with
  | nil => simp at hex
  | cons x xs ih =>
    simp only [List.foldl_cons]
    rcases List.mem_cons.mp hex with h1 | h1
    · rw [← h1, max_eq_right hb]
      exact foldl_max_of_le xs 1 (fun y hy => hle y (by simp [hy]))
    · exact ih (max b x) (max_le hb (hle x (by simp))) h1 (fun y hy => hle y (by simp [hy]))

/-- run.noveltyScore on a nonempty history in closed form: one minus
the maximal token-set Jaccard similarity against the history,
clamped. -/
lemma noveltyScore_formula (c : Str) (hist : List Str) (hne : hist ≠ []) :
    noveltyScore c hist =
      clamp01 (1 - (hist.map (fun x =>
        jaccardTokens (toTokenSet c) (toTokenSet x))).foldl max 0) := by
  unfold noveltyScore
  rw [if_neg hne]
  simp only [foldl_sim_max]

end run

/-- C9: novelty of any candidate against an empty history is 1,
novelty against a history holding the candidate itself is 0, and in
general novelty on a nonempty history is one minus the maximum
token-set Jaccard similarity against the history, clamped to the unit
interval, over token sets built by whitespace splitting, lower-casing,
punctuation stripping and discarding tokens shorter than 4
characters. -/
theorem novelty_empty_history_and_self :
    (∀ c : Str, run.noveltyScore c [] = 1) ∧
    (∀ c : Str, run.noveltyScore c [c] = 0) ∧
    (∀ (c : Str) (hist : List Str), hist ≠ [] →
      run.noveltyScore c hist =
        run.clamp01 (1 - (hist.map (fun x =>
          run.jaccardTokens (run.toTokenSet c) (run.toTokenSet x))).foldl max 0)) := by
  refine ⟨fun c => by simp [run.noveltyScore], fun c => ?_, run.noveltyScore_formula⟩
  rw [run.noveltyScore_formula c [c] (by simp)]
  simp only [List.map_cons, List.map_nil, run.jaccardTokens_self, List.foldl_cons,
    List.foldl_nil]
  norm_num [run.clamp01]

/-- Witness for C9: the closed form evaluated for a concrete candidate
and a concrete one-entry history. -/
theorem novelty_empty_history_and_self_witness :
    run.noveltyScore "resume sessions safely".toList ["different words entirely".toList] =
      run.clamp01 (1 - (["different words entirely".toList].map (fun x =>
        run.jaccardTokens (run.toTokenSet "resume sessions safely".toList)
          (run.toTokenSet x))).foldl max 0) :=
  novelty_empty_history_and_self.2.2 "resume sessions safely".toList
    ["different words entirely".toList] (by decide)

/-- C10: two texts whose normalized token sets are both empty have
token Jaccard similarity 1; a candidate with an empty token set scores
novelty 0 against any history containing another empty-token-set
entry, and novelty 1 against a history whose entries all have
non-empty token sets. -/
theorem empty_token_sets_jaccard_one_novelty
    (a b c : Str) (hist : List Str) :
    (run.toTokenSet a = [] → run.toTokenSet b = [] →
      run.jaccardTokens (run.toTokenSet a) (run.toTokenSet b) = 1) ∧
    (run.toTokenSet c = [] → (∃ x ∈ hist, run.toTokenSet x = []) →
      run.noveltyScore c hist = 0) ∧
    (run.toTokenSet c = [] → (∀ x ∈ hist, run.toTokenSet x ≠ []) →
      run.noveltyScore c hist = 1) := by
  refine ⟨?_, ?_, ?_⟩
  · intro ha hb
    rw [ha, hb]
    simp [run.jaccardTokens]
  · intro hc hex
    obtain ⟨x, hx, hxe⟩ := hex
    have hne : hist ≠ [] := List.ne_nil_of_mem hx
    rw [run.noveltyScore_formula c hist hne]
    simp only [hc]
    have hfold : (hist.map (fun t => run.jaccardTokens [] (run.toTokenSet t))).foldl
        max 0 = 1 := by
      apply run.foldl_max_eq_one _ _ (by norm_num)
      · refine List.mem_map.mpr ⟨x, hx, ?_⟩
        rw [run.jaccardTokens_nil_left, hxe]
        simp
      · intro y hy
        obtain ⟨t, _, rfl⟩ := List.mem_map.mp hy
        rw [run.jaccardTokens_nil_left]
        split <;> norm_num
    rw [hfold]
    norm_num [run.clamp01]
  · intro hc hall
    cases hist with
    | nil => simp [run.noveltyScore]
    | cons x xs =>
      rw [run.noveltyScore_formula c (x :: xs) (by simp)]
      simp only [hc]
      have hfold : ((x :: xs).map (fun t => run.jaccardTokens [] (run.toTokenSet t))).foldl
          max 0 = 0 := by
        apply run.foldl_max_of_le
        intro y hy
        obtain ⟨t, ht, rfl⟩ := List.mem_map.mp hy
        rw [run.jaccardTokens_nil_left,
          if_neg (by simpa [List.length_eq_zero] using hall t ht)]
      rw [hfold]
      norm_num [run.clamp01]

/-- Witness for C10: concrete contentless texts (every token shorter
than 4 characters) and a content-bearing text. -/
theorem empty_token_sets_jaccard_one_novelty_witness :
    run.jaccardTokens (run.toTokenSet "a bc de".toList) (run.toTokenSet "no op ok".toList) = 1 ∧
    run.noveltyScore "a bc de".toList ["abcdef ghijkl".toList, "no op ok".toList] = 0 ∧
    run.noveltyScore "a bc de".toList ["abcdef ghijkl".toList] = 1 :=
  ⟨(empty_token_sets_jaccard_one_novelty "a bc de".toList "no op ok".toList
      "a bc de".toList []).1 (by decide) (by decide),
   (empty_token_sets_jaccard_one_novelty "a bc de".toList "no op ok".toList
      "a bc de".toList ["abcdef ghijkl".toList, "no op ok".toList]).2.1 (by decide)
     ⟨"no op ok".toList, by decide, by decide⟩,
   (empty_token_sets_jaccard_one_novelty "a bc de".toList "no op ok".toList
      "a bc de".toList ["abcdef ghijkl".toList]).2.2 (by decide) (by decide)⟩

lemma infix_dropWhile (p : Char → Bool) (pat : Str) (hpat : ∀ c ∈ pat, p c = false)
    (hne : pat ≠ []) : ∀ l : Str, pat <:+: l → pat <:+: l.dropWhile p := by
  intro l
  induction l with
  | nil => intro h; simpa using h
  | cons c rest ih =>
    intro h
    by_cases hc : p c
    · rw [List.dropWhile_cons, if_pos hc]
      apply ih
      rcases List.infix_cons_iff.mp h with hpre | hinf
      · cases pat with
        | nil => exact absurd rfl hne
        | cons pc pt =>
          have hpc : pc = c := (List.cons_prefix_cons.mp hpre).1
          have := hpat pc (by simp)
          rw [hpc] at this
          exact absurd hc (by simp [this])
      · exact hinf
    · rw [List.dropWhile_cons, if_neg hc]
      exact h

lemma infix_reverse_of (l p : Str) (h : p <:+: l) : p.reverse <:+: l.reverse := by
  obtain ⟨u, v, rfl⟩ := h
  refine ⟨v.reverse, u.reverse, ?_⟩
  simp [List.reverse_append, List.append_assoc]

/-- A nonempty all-non-whitespace pattern that occurs in a text also
occurs in its trimmed form. -/
lemma infix_trimSpace (pat s : Str) (hpat : ∀ c ∈ pat, uniSpaceB c = false)
    (hne : pat ≠ []) (h : pat <:+: s) : pat <:+: trimSpace s := by
  have h1 : pat <:+: s.dropWhile uniSpaceB := infix_dropWhile uniSpaceB pat hpat hne s h
  have h2 : pat.reverse <:+: (s.dropWhile uniSpaceB).reverse := infix_reverse_of _ _ h1
  have hpatr : ∀ c ∈ pat.reverse, uniSpaceB c = false := by
    intro c hc
    exact hpat c (List.mem_reverse.mp hc)
  have hner : pat.reverse ≠ [] := by
    simpa using hne
  have h3 : pat.reverse <:+: (s.dropWhile uniSpaceB).reverse.dropWhile uniSpaceB :=
    infix_dropWhile uniSpaceB pat.reverse hpatr hner _ h2
  have h4 := infix_reverse_of _ _ h3
  rw [List.reverse_reverse] at h4
  exact h4

namespace run

/-- Some line of the text begins with the literal "diff --git". -/
def hasDiffGitLine (s : Str) : Bool :=
  (atLineStarts s).any (fun t => decide ("diff --git".toList <+: t))

lemma diffGit_implies_diffMarker (s : Str) (h : hasDiffGitLine s = true) :
    diffMarkerMatch s = true := by
  unfold hasDiffGitLine at h
  unfold diffMarkerMatch
  rw [List.any_eq_true] at h ⊢
  obtain ⟨t, ht, hp⟩ := h
  obtain ⟨u, hu⟩ := of_decide_eq_true hp
  refine ⟨t, ht, ?_⟩
  rw [← hu]
  rfl

lemma isPrefixOf_iff (p l : Str) : p.isPrefixOf l = true ↔ p <+: l := by
  induction p generalizing l with
  | nil => simp [List.isPrefixOf]
  | cons c cs ih =>
    cases l with
    | nil => simp [List.isPrefixOf]
    | cons d ds =>
      simp [List.isPrefixOf, List.cons_prefix_cons, ih, Bool.and_eq_true, beq_iff_eq]

lemma containsStr_iff_occurs (pat t : Str) : containsStr pat t = true ↔ pat <:+: t := by
  unfold containsStr
  rw [List.any_eq_true]
  constructor
  · rintro ⟨u, hu, hp⟩
    exact (((isPrefixOf_iff _ _).mp hp).isInfix).trans
      ((List.mem_tails _ _).mp hu).isInfix
  · rintro ⟨u, v, huv⟩
    refine ⟨pat ++ v, (List.mem_tails _ _).mpr ⟨u, ?_⟩,
      (isPrefixOf_iff _ _).mpr ⟨v, rfl⟩⟩
    rw [← List.append_assoc, huv]

lemma mem_afterSpaceTails (c : Char) (hc : goSpaceB c = true) :
    ∀ (u w : Str), w ∈ afterSpaceTails (u ++ c :: w) := by
  intro u
  induction u with
  | nil =>
    intro w
    simp [afterSpaceTails, hc]
  | cons d ds ih =>
    intro w
    simp only [List.cons_append, afterSpaceTails]
    exact List.mem_append_right _ (ih w)

/-- A text containing a space-surrounded hash reference such as
" #123 " matches issueRefRe. -/
lemma hashRef_implies_issueRef (s : Str) (h : containsStr " #123 ".toList s = true) :
    issueRefMatch s = true := by
  obtain ⟨u, v, huv⟩ := (containsStr_iff_occurs _ _).mp h
  have hs : s = u ++ ' ' :: ("#123 ".toList ++ v) := by
    rw [← huv]
    simp [List.append_assoc]
  unfold issueRefMatch
  have hmem : ("#123 ".toList ++ v) ∈ afterSpaceTails s := by
    rw [hs]
    exact mem_afterSpaceTails ' ' rfl u ("#123 ".toList ++ v)
  have hbody : issueBodyAt ("#123 ".toList ++ v) = true := rfl
  have hany : (afterSpaceTails s).any issueBodyAt = true :=
    List.any_eq_true.mpr ⟨"#123 ".toList ++ v, hmem, hbody⟩
  rw [hany, Bool.or_true]

set_option maxHeartbeats 1000000 in
lemma ValidateNoCodePrompt_eq_none_iff (s : Str) (maxLength : Nat) :
    ValidateNoCodePrompt s maxLength = none ↔
      (trimSpace s ≠ [] ∧
       ¬(0 < maxLength ∧ maxLength < (trimSpace s).length) ∧
       containsStr "```".toList (trimSpace s) = false ∧
       containsStr "`".toList (trimSpace s) = false ∧
       diffMarkerMatch (trimSpace s) = false ∧
       commandLineMatch (trimSpace s) = false ∧
       stackTraceMatch (trimSpace s) = false ∧
       compileErrMatch (trimSpace s) = false ∧
       issueRefMatch (trimSpace s) = false ∧
       hasCodePrefixedLine (trimSpace s) = false) := by
  simp only [ValidateNoCodePrompt]
  split_ifs with h1 h2 h3 h4 h5 h6 h7 h8 h9 h10 <;>
    simp_all only [ne_eq, not_false_eq_true, not_true_eq_false, Bool.not_eq_true,
      reduceCtorEq, true_and, false_and, and_false, and_true, iff_true, iff_false,
      not_and, not_lt, not_forall, false_iff, true_iff, Option.some_ne_none]
  exact fun _ => trivial

lemma ValidateStructuredPrompt_eq_none_iff (s : Str) :
    ValidateStructuredPrompt s = none ↔
      (trimSpace s ≠ [] ∧ sectionContextMatch (trimSpace s) = true ∧
       sectionOutcomeMatch (trimSpace s) = true ∧
       sectionConstraintMatch (trimSpace s) = true ∧
       sectionAcceptMatch (trimSpace s) = true) := by
  simp only [ValidateStructuredPrompt]
  split_ifs with h1 h2 h3 h4 h5 <;>
    simp_all only [ne_eq, not_false_eq_true, not_true_eq_false, Bool.not_eq_true,
      reduceCtorEq, true_and, false_and, and_false, and_true, iff_true, iff_false,
      false_iff, true_iff, Option.some_ne_none]

end run

/-- C7: the prompt validator rejects any text containing a fenced code
block, any text whose trimmed form matches the issue-reference
pattern (in particular any text containing a space-surrounded
reference such as " #123 "), any text with a line beginning with
"diff --git", and any
text without an Acceptance Criteria (or synonym) section header; and
it accepts any text that has all four case-insensitive section headers
in any order and none of the validator rejection markers (within the
length cap, no inline code, no diff/command/stack-trace/compiler-log
artifacts, no tracker references, no code-like prefixed lines). -/
theorem prompt_validator_rejections_and_acceptance (s : Str) (maxLength : Nat) :
    ((("```".toList : Str) <:+: s) → run.ValidateNoCodePrompt s maxLength ≠ none) ∧
    (run.issueRefMatch (trimSpace s) = true → run.ValidateNoCodePrompt s maxLength ≠ none) ∧
    (run.containsStr " #123 ".toList (trimSpace s) = true →
      run.ValidateNoCodePrompt s maxLength ≠ none) ∧
    (run.hasDiffGitLine (trimSpace s) = true → run.ValidateNoCodePrompt s maxLength ≠ none) ∧
    (run.sectionAcceptMatch (trimSpace s) = false → run.ValidateStructuredPrompt s ≠ none) ∧
    ((trimSpace s ≠ [] ∧ ¬(0 < maxLength ∧ maxLength < (trimSpace s).length) ∧
      ¬(("`".toList : Str) <:+: trimSpace s) ∧
      run.diffMarkerMatch (trimSpace s) = false ∧
      run.commandLineMatch (trimSpace s) = false ∧
      run.stackTraceMatch (trimSpace s) = false ∧
      run.compileErrMatch (trimSpace s) = false ∧
      run.issueRefMatch (trimSpace s) = false ∧
      run.hasCodePrefixedLine (trimSpace s) = false ∧
      run.sectionContextMatch (trimSpace s) = true ∧
      run.sectionOutcomeMatch (trimSpace s) = true ∧
      run.sectionConstraintMatch (trimSpace s) = true ∧
      run.sectionAcceptMatch (trimSpace s) = true) →
      run.ValidateNoCodePrompt s maxLength = none ∧
        run.ValidateStructuredPrompt s = none) := by
  have hissueRej : run.issueRefMatch (trimSpace s) = true →
      run.ValidateNoCodePrompt s maxLength ≠ none := by
    intro h hnone
    have := ((run.ValidateNoCodePrompt_eq_none_iff s maxLength).mp hnone).2.2.2.2.2.2.2.2.1
    rw [h] at this
    exact Bool.noConfusion this
  refine ⟨?_, hissueRej, ?_, ?_, ?_, ?_⟩
  · intro h hnone
    have hfenced : run.containsStr "```".toList (trimSpace s) = true :=
      (run.containsStr_iff_occurs _ _).mpr (infix_trimSpace _ _ (by decide) (by decide) h)
    have := ((run.ValidateNoCodePrompt_eq_none_iff s maxLength).mp hnone).2.2.1
    rw [hfenced] at this
    exact Bool.noConfusion this
  · intro h
    exact hissueRej (run.hashRef_implies_issueRef _ h)
  · intro h hnone
    have hm := run.diffGit_implies_diffMarker _ h
    have := ((run.ValidateNoCodePrompt_eq_none_iff s maxLength).mp hnone).2.2.2.2.1
    rw [hm] at this
    exact Bool.noConfusion this
  · intro h hnone
    have := ((run.ValidateStructuredPrompt_eq_none_iff s).mp hnone).2.2.2.2
    rw [this] at h
    exact Bool.noConfusion h
  · rintro ⟨hne, hlen, htick, hdiff, hcmd, hstack, hcompile, hissue, hpre, hctx, hout,
      hcon, hacc⟩
    have htickb : run.containsStr "`".toList (trimSpace s) = false := by
      rw [Bool.eq_false_iff]
      intro hb
      exact htick ((run.containsStr_iff_occurs _ _).mp hb)
    have hfence : run.containsStr "```".toList (trimSpace s) = false := by
      rw [Bool.eq_false_iff]
      intro hb
      exact htick (List.IsInfix.trans (by decide)
        ((run.containsStr_iff_occurs _ _).mp hb))
    exact ⟨(run.ValidateNoCodePrompt_eq_none_iff s maxLength).mpr
        ⟨hne, hlen, hfence, htickb, hdiff, hcmd, hstack, hcompile, hissue, hpre⟩,
      (run.ValidateStructuredPrompt_eq_none_iff s).mpr ⟨hne, hctx, hout, hcon, hacc⟩⟩

/-- A well-formed prompt: all four sections, no rejected markers. -/
def demoGoodPrompt : Str :=
  ("# Context\nUsers need resumable sessions to recover their work.\n" ++
   "# Desired Outcomes\nSessions resume safely and predictably.\n" ++
   "# Constraints and Non-Goals\nAvoid unrelated refactors and keep scope small.\n" ++
   "# Acceptance Criteria\nResume paths are covered by tests and verified.").toList

/-- A prompt with a fenced code block. -/
def demoFencedPrompt : Str := ("# Context\nUse ```code``` here.").toList

/-- A prompt with an issue reference. -/
def demoIssuePrompt : Str := ("# Context\nSee #123 for details.").toList

/-- A prompt with a diff header line. -/
def demoDiffPrompt : Str := ("intro text\ndiff --git a/x b/x\nmore text").toList

/-- A well-formed prompt using the synonym headers in scrambled
order. -/
def demoSynonymPrompt : Str :=
  ("# Validation\nBehavior is verified against the stated criteria.\n" ++
   "# Out of Scope\nNothing beyond session recovery changes.\n" ++
   "# Goals\nInterrupted sessions are restored cleanly.\n" ++
   "# Context\nOperators currently lose progress on disconnect.").toList

/-- A prompt missing the Acceptance Criteria section. -/
def demoNoAcceptPrompt : Str :=
  ("# Context\nSome context.\n# Goals\nSome goals.\n# Non-Goals\nSome non-goals.").toList

set_option maxRecDepth 16384 in
set_option maxHeartbeats 4000000 in
/-- Witness for C7: the validator accepts the concrete well-formed
prompt and rejects the fenced, issue-referencing, diff-carrying and
acceptance-free prompts. -/
theorem prompt_validator_witness :
    run.ValidateNoCodePrompt demoGoodPrompt 0 = none ∧
    run.ValidateStructuredPrompt demoGoodPrompt = none ∧
    run.ValidateStructuredPrompt demoSynonymPrompt = none ∧
    run.ValidateNoCodePrompt demoFencedPrompt 0 ≠ none ∧
    run.ValidateNoCodePrompt demoIssuePrompt 0 ≠ none ∧
    run.ValidateNoCodePrompt demoDiffPrompt 0 ≠ none ∧
    run.ValidateStructuredPrompt demoNoAcceptPrompt ≠ none := by
  refine ⟨?_, ?_, ?_, ?_, ?_, ?_, ?_⟩
  · exact ((prompt_validator_rejections_and_acceptance demoGoodPrompt 0).2.2.2.2.2
      (by decide)).1
  · exact ((prompt_validator_rejections_and_acceptance demoGoodPrompt 0).2.2.2.2.2
      (by decide)).2
  · exact ((prompt_validator_rejections_and_acceptance demoSynonymPrompt 0).2.2.2.2.2
      (by decide)).2
  · exact (prompt_validator_rejections_and_acceptance demoFencedPrompt 0).1 (by decide)
  · exact (prompt_validator_rejections_and_acceptance demoIssuePrompt 0).2.2.1 (by decide)
  · exact (prompt_validator_rejections_and_acceptance demoDiffPrompt 0).2.2.2.1 (by decide)
  · exact (prompt_validator_rejections_and_acceptance demoNoAcceptPrompt 0).2.2.2.2.1
      (by decide)

end Retrospec
